import Mathlib

/-!
Verification of the render-session orchestrator (persistent_runner.py).

The Python source is shallowly embedded: pure helpers become Lean functions,
the interactive loops become step functions over explicit input scripts, the
filesystem becomes an inductive tree, and machine-level failures (a Python
TypeError, a CalledProcessError from the encoder) become Except values.
-/

/-! ## Python string and number primitives

Implemented over `List Char` by structural recursion so every definition
reduces inside the kernel (the core String functions use well-founded
recursion and get stuck under `decide`). -/

/-- The whitespace characters Python str.strip removes. -/
def isPySpace (c : Char) : Bool :=
  c == ' ' || c == '\t' || c == '\n' || c == '\r' || c == '\x0b' || c == '\x0c'

/-- Remove whitespace from both ends of a character list. -/
def trimChars (cs : List Char) : List Char :=
  ((cs.dropWhile isPySpace).reverse.dropWhile isPySpace).reverse

/-- Python str.strip. -/
def pyStrip (s : String) : String := String.mk (trimChars s.data)

/-- ASCII lower-casing of one character. -/
def lowerChar (c : Char) : Char :=
  if 65 ≤ c.toNat ∧ c.toNat ≤ 90 then Char.ofNat (c.toNat + 32) else c

/-- Python str.lower (ASCII model). -/
def pyLower (s : String) : String := String.mk (s.data.map lowerChar)

/-- Python str.isdigit: nonempty and every character a digit (ASCII model). -/
def pyIsdigit (s : String) : Bool := !s.data.isEmpty && s.data.all Char.isDigit

/-- Value of a list of decimal digit characters, most significant first. -/
def digitsVal (ds : List Char) : Nat := ds.foldl (fun a c => a * 10 + (c.toNat - 48)) 0

/-- Python int(str): optional sign, then decimal digits, whitespace-trimmed;
`none` models the ValueError raised on anything else. -/
def pyInt? (s : String) : Option Int :=
  match (pyStrip s).data with
  | '-' :: ds => if !ds.isEmpty && ds.all Char.isDigit then some (-(digitsVal ds : Int)) else none
  | '+' :: ds => if !ds.isEmpty && ds.all Char.isDigit then some ((digitsVal ds : Int)) else none
  | ds => if !ds.isEmpty && ds.all Char.isDigit then some ((digitsVal ds : Int)) else none

/-- Python str.split(sep) for a one-character separator: empty pieces kept. -/
def splitOnChar (sep : Char) : List Char → List (List Char)
  | [] => [[]]
  | c :: cs =>
    let r := splitOnChar sep cs
    if c == sep then [] :: r
    else
      match r with
      | [] => [[c]]
      | g :: gs => (c :: g) :: gs

/-- Python resp.split(","). -/
def pySplitComma (s : String) : List String := (splitOnChar ',' s.data).map String.mk

/-- Rejoin the pieces after the first dash with dashes. -/
def joinWithDash : List (List Char) → List Char
  | [] => []
  | [g] => g
  | g :: gs => g ++ '-' :: joinWithDash gs

/-- Python part.split("-", 1): split at the first dash only. -/
def splitDashOnce (s : String) : String × String :=
  match splitOnChar '-' s.data with
  | [] => (s, "")
  | a :: rest => (String.mk a, String.mk (joinWithDash rest))

/-- Python range(a, b) as a list of integers. -/
def intRange (a b : Int) : List Int := (List.range (b - a).toNat).map (fun k => a + k)

/-! ## Selection Engine: prompt_item_indices (persistent_runner.py lines 81-102) -/

/-- One comma-separated token of the selection string: either a single integer
or an inclusive range `a-b` contributing range(a, b+1).  `none` models the
ValueError that makes the whole prompt reprompt. -/
def parsePart (part : String) : Option (List Int) :=
  if part.data.contains '-' then
    match pyInt? (splitDashOnce part).1, pyInt? (splitDashOnce part).2 with
    | some a, some b => some (intRange a (b + 1))
    | _, _ => none
  else
    (pyInt? part).map (fun x => [x])

/-- Python sorted(set(l)) for integers: deduplicate and sort ascending. -/
def pySortedSet (l : List Int) : List Int := (l.insertionSort (· ≤ ·)).dedup

/-- Outcome of one pass of the prompt_item_indices while-loop on one input. -/
inductive PromptResult where
  | quit : PromptResult
  | accepted : List Int → PromptResult
  | reprompt : PromptResult
deriving DecidableEq

/-- One iteration of the prompt_item_indices loop body, given the raw input
line: quit tokens exit the process, "all" selects every index, otherwise the
comma-separated tokens are parsed, clamped to [1, total], deduplicated and
sorted; an empty surviving set (or a parse error) reprompts. -/
def prompt_item_indices_step (total : Nat) (resp : String) : PromptResult :=
  let r := pyLower (pyStrip resp)
  if r = "q" ∨ r = "quit" then .quit
  else if r = "all" then .accepted ((List.range total).map (fun k : Nat => (k : Int) + 1))
  else
    match (pySplitComma r).mapM parsePart with
    | none => .reprompt
    | some chunks =>
      let valid := pySortedSet (chunks.flatten.filter (fun i => decide (1 ≤ i ∧ i ≤ (total : Int))))
      if valid = [] then .reprompt else .accepted valid

/-! ## Filesystem model and Selection Engine expansion
(persistent_runner.py lines 37-38, 105-137) -/

/-- A node of the browsable image tree (iterdir / rglob are modelled on it). -/
inductive FSNode where
  | file (name : String)
  | dir (name : String) (children : List FSNode)

def FSNode.name : FSNode → String
  | .file n => n
  | .dir n _ => n

def FSNode.isDir : FSNode → Bool
  | .file _ => false
  | .dir _ _ => true

/-- Lexicographic comparison of character lists by code point, the order
Python uses for strings. -/
def charListLE : List Char → List Char → Bool
  | [], _ => true
  | _ :: _, [] => false
  | a :: as, b :: bs =>
    if a.toNat < b.toNat then true
    else if b.toNat < a.toNat then false
    else charListLE as bs

/-- Python string comparison s <= t. -/
def strLE (s t : String) : Prop := charListLE s.data t.data = true

/-- First component of the iterdir sort key: (not p.is_dir()) as 0/1. -/
def dirRank (e : FSNode) : Nat := if e.isDir then 0 else 1

/-- The iterdir sort key ordering: key=lambda p: (not p.is_dir(), p.name.lower()),
compared lexicographically as Python compares tuples. -/
def keyLE (a b : FSNode) : Prop :=
  dirRank a < dirRank b ∨
    (dirRank a = dirRank b ∧ charListLE (pyLower a.name).data (pyLower b.name).data = true)

instance : DecidableRel strLE := fun s t => by unfold strLE; infer_instance

instance : DecidableRel keyLE := fun a b => by unfold keyLE; infer_instance

/-- The listing `sorted(root_dir.iterdir(), key=lambda p: (not p.is_dir(), p.name.lower()))`. -/
def sortEntries (l : List FSNode) : List FSNode := l.insertionSort keyLE

/-- Python sorted(paths) for the rglob result (Python compares path strings). -/
def sortStrings (l : List String) : List String := l.insertionSort strLE

/-- Python sorted(set(selected), key=lambda p: str(p)). -/
def pySortedSetStr (l : List String) : List String := (l.insertionSort strLE).dedup

/-- Joining a path and a child name, pathlib's / operator. -/
def pyJoin (p : String) (seg : String) : String := p ++ "/" ++ seg

/-- The last path component, pathlib's .name. -/
def lastComponent (cs : List Char) : List Char :=
  ((cs.reverse).takeWhile (fun c => !(c == '/'))).reverse

/-- pathlib's Path.suffix on the character level: the part of the last
component from its last dot, empty when the dot is first or last. -/
def pySuffixChars (cs : List Char) : List Char :=
  let nm := lastComponent cs
  let rev := nm.reverse
  if rev.contains '.' then
    let pre := rev.takeWhile (fun c => !(c == '.'))
    let rest := (rev.dropWhile (fun c => !(c == '.'))).tail
    if 0 < rest.length ∧ 0 < pre.length then '.' :: pre.reverse else []
  else []

/-- pathlib's Path.suffix. -/
def pySuffix (s : String) : String := String.mk (pySuffixChars s.data)

/-- Supported image extensions (persistent_runner.py line 37). -/
def IMAGE_EXTS : List String := [".png", ".jpg", ".jpeg", ".bmp", ".webp"]

/-- img.suffix.lower() in IMAGE_EXTS. -/
def recognizedPath (p : String) : Bool := IMAGE_EXTS.contains (pyLower (pySuffix p))

mutual
/-- Paths of a node and of all its descendants, in tree order. -/
def descPaths (pre : String) : FSNode → List String
  | .file n => [pyJoin pre n]
  | .dir n cs => pyJoin pre n :: descPathsList (pyJoin pre n) cs

/-- Paths of all nodes of a forest and of their descendants; rglob("*") on a
directory with these children yields exactly these paths. -/
def descPathsList (pre : String) : List FSNode → List String
  | [] => []
  | c :: cs => descPaths pre c ++ descPathsList pre cs
end

/-- What one picked entry contributes to `selected`: a directory contributes
every recursively found path with a recognized extension (via
sorted(path.rglob("*"))), a file contributes itself when its extension is
recognized. -/
def entryContrib (rootPath : String) : FSNode → List String
  | .file n =>
    if recognizedPath (pyJoin rootPath n) then [pyJoin rootPath n] else []
  | .dir n cs =>
    (sortStrings (descPathsList (pyJoin rootPath n) cs)).filter recognizedPath

/-- The `selected` list accumulated over the picked 1-based indices. -/
def expandSelection (rootPath : String) (entries : List FSNode) (picks : List Int) : List String :=
  picks.flatMap (fun i =>
    match entries.get? (i - 1).toNat with
    | some node => entryContrib rootPath node
    | none => [])

/-- The tail of the prompt_image_selection loop body once indices are picked:
none models the "No images found in your selection" reprompt, some the
returned `unique = sorted(set(selected), key=lambda p: str(p))`. -/
def selectionResolve (rootPath : String) (entries : List FSNode) (picks : List Int) :
    Option (List String) :=
  if expandSelection rootPath entries picks = [] then none
  else some (pySortedSetStr (expandSelection rootPath entries picks))

/-! ## Staging Pipeline (persistent_runner.py lines 221-229) -/

/-- The character of a decimal digit. -/
def digitChar (d : Nat) : Char := Char.ofNat (48 + d)

/-- Decimal digits of a natural number, fuelled so the recursion is
structural and reduces in the kernel; adequate whenever n < fuel. -/
def natDigitsGo (fuel : Nat) (n : Nat) : List Char :=
  match fuel with
  | 0 => []
  | fuel + 1 =>
    if n < 10 then [digitChar n]
    else natDigitsGo fuel (n / 10) ++ [digitChar (n % 10)]

/-- Decimal digits of a natural number, most significant first. -/
def natDigits (n : Nat) : List Char := natDigitsGo (n + 1) n

/-- Python str(n) for a natural number. -/
def natStr (n : Nat) : String := String.mk (natDigits n)

/-- Python str(i) for an int. -/
def intStr (i : Int) : String :=
  if i < 0 then String.mk ('-' :: natDigits i.natAbs) else natStr i.natAbs

/-- Python f-string {i:06d}: the decimal digits left-padded with zeros to
width 6. -/
def pad6 (m : Nat) : String :=
  String.mk (List.replicate (6 - (natDigits m).length) '0' ++ natDigits m)

/-- The staged filename f"{i:06d}{src.suffix}" for sequence number i. -/
def stagedName (i : Nat) (src : String) : String := pad6 i ++ pySuffix src

/-- The copies performed by `for i, src in enumerate(selected, start=1)`:
destination filename paired with the source, in order, numbering from k. -/
def stagedPairsFrom (k : Nat) : List String → List (String × String)
  | [] => []
  | src :: rest => (stagedName k src, src) :: stagedPairsFrom (k + 1) rest

/-- The full staging copy plan for a resolved image list, numbering from 1. -/
def stagedPairs (selected : List String) : List (String × String) := stagedPairsFrom 1 selected

/-- shutil.rmtree(temp_dir, ignore_errors=True) followed by mkdir: whatever
the directory held, it is now empty. -/
def rmtree_contents (_d : List (String × String)) : List (String × String) := []

/-- shutil.copy(src, dst): the destination directory maps dst to a copy of
src, overwriting any existing entry of that name. -/
def copy_into (d : List (String × String)) (dst src : String) : List (String × String) :=
  (d.filter (fun e => e.1 != dst)) ++ [(dst, src)]

/-- The staging step of the orchestrator loop: destroy and recreate the
destination, then copy each selected image under its sequential name. -/
def stage_into (d : List (String × String)) (selected : List String) : List (String × String) :=
  (stagedPairs selected).foldl (fun acc pr => copy_into acc pr.1 pr.2) (rmtree_contents d)

/-! ## Render configuration parsing (persistent_runner.py lines 238-248) -/

/-- fps = int(fps) if fps.isdigit() else 24, on the stripped input. -/
def parse_fps (s : String) : Int :=
  if pyIsdigit (pyStrip s) then (digitsVal (pyStrip s).data : Int) else 24

/-- padding = int(padd) if padd.isdigit() else 0, on the stripped input. -/
def parse_padding (s : String) : Int :=
  if pyIsdigit (pyStrip s) then (digitsVal (pyStrip s).data : Int) else 0

/-- Split leading decimal digits from the rest. -/
def takeDigits (cs : List Char) : List Char × List Char :=
  (cs.takeWhile Char.isDigit, cs.dropWhile Char.isDigit)

/-- The optional exponent of a Python float literal, applied to mantissa m. -/
def parseExpPart (cs : List Char) (m : ℚ) : Option ℚ :=
  match cs with
  | [] => some m
  | e :: r =>
    if e == 'e' || e == 'E' then
      let sr : Int × List Char :=
        match r with
        | '+' :: t => (1, t)
        | '-' :: t => (-1, t)
        | t => (1, t)
      let (ds, r3) := takeDigits sr.2
      if ds.isEmpty || !r3.isEmpty then none
      else some (m * (10 : ℚ) ^ (sr.1 * (digitsVal ds : Int)))
    else none

/-- The unsigned part of a Python float literal: digits, optional dot and
fraction digits, optional exponent. -/
def pyFloatMantissa (cs : List Char) : Option ℚ :=
  let (ip, r1) := takeDigits cs
  match r1 with
  | '.' :: r2 =>
    let (fp, r3) := takeDigits r2
    if ip.isEmpty && fp.isEmpty then none
    else parseExpPart r3 ((digitsVal ip : ℚ) + (digitsVal fp : ℚ) / (10 : ℚ) ^ fp.length)
  | _ =>
    if ip.isEmpty then none else parseExpPart r1 ((digitsVal ip : ℚ))

/-- Python float(str) on finite decimal literals, the values exactly
represented as rationals; `none` models the ValueError that falls back to
the default ("inf"/"nan" forms are outside this model). -/
def pyFloat? (s : String) : Option ℚ :=
  match (pyStrip s).data with
  | '+' :: r => pyFloatMantissa r
  | '-' :: r => (pyFloatMantissa r).map (fun q => -q)
  | r => pyFloatMantissa r

/-- zoom = float(zoom) with 1.0 on ValueError, on the stripped input. -/
def parse_zoom (s : String) : ℚ :=
  match pyFloat? (pyStrip s) with
  | some q => q
  | none => 1

/-! ## Encode Command Builder (persistent_runner.py lines 154-176) -/

/-- Toggle TTS narration on/off (persistent_runner.py line 34). -/
def ENABLE_TTS : Bool := false

/-- Fractional decimal digits of a rational in [0, 1), up to k of them. -/
def fracDigits : ℚ → Nat → List Char
  | _, 0 => []
  | q, k + 1 =>
    if q = 0 then []
    else digitChar (⌊q * 10⌋).toNat :: fracDigits (q * 10 - ⌊q * 10⌋) k

/-- Python str(float) for values with a finite decimal expansion: sign,
integer part, dot, fraction digits (a single 0 when the value is whole). -/
def floatRepr (q : ℚ) : String :=
  let sgn := if q < 0 then "-" else ""
  let a := |q|
  let ds := fracDigits (a - ⌊a⌋) 17
  sgn ++ natStr (⌊a⌋).toNat ++ "." ++ (if ds.isEmpty then "0" else String.mk ds)

/-- The progressive-zoom filter f"zoompan=z='min(zoom+0.0005,{zoom})':d=1". -/
def zoom_filter (zoom : ℚ) : String :=
  "zoompan=z=\x27min(zoom+0.0005," ++ floatRepr zoom ++ ")\x27:d=1"

/-- The padding filter f"pad=iw+{padding*2}:ih+{padding*2}:{padding}:{padding}:black". -/
def pad_filter (padding : Int) : String :=
  "pad=iw+" ++ intStr (padding * 2) ++ ":ih+" ++ intStr (padding * 2) ++ ":" ++
    intStr padding ++ ":" ++ intStr padding ++ ":black"

/-- Python ",".join(filters). -/
def joinComma : List String → String
  | [] => ""
  | [f] => f
  | f :: fs => f ++ "," ++ joinComma fs

/-- build_ffmpeg_cmd: the deterministic encoder argument list.  The zoom
filter is appended when zoom != 1.0, the pad filter when padding > 0; any
filters are joined into one -vf argument; the audio input and audio codec
are appended only when ENABLE_TTS is on and the audio file exists (an
existing file is modelled as a some value). -/
def build_ffmpeg_cmd (image_pattern : String) (fps : Int) (zoom : ℚ) (padding : Int)
    (audio_path : Option String) (output_path : String) : List String :=
  let cmd0 := ["ffmpeg", "-y", "-framerate", intStr fps, "-i", image_pattern]
  let filters := (if zoom ≠ 1 then [zoom_filter zoom] else []) ++
    (if 0 < padding then [pad_filter padding] else [])
  let cmd1 := cmd0 ++ (if filters.isEmpty then [] else ["-vf", joinComma filters])
  let cmd2 := cmd1 ++ (if ENABLE_TTS && audio_path.isSome then
      ["-i", audio_path.getD "", "-shortest"] else [])
  let cmd3 := cmd2 ++ ["-c:v", "libx264", "-pix_fmt", "yuv420p"]
  let cmd4 := cmd3 ++ (if ENABLE_TTS && audio_path.isSome then ["-c:a", "aac"] else [])
  cmd4 ++ [output_path]

/-! ## The frame-pattern expression (persistent_runner.py line 251) -/

/-- A Python value that is either a pathlib Path or a str. -/
inductive PyVal where
  | pathVal (s : String)
  | strVal (s : String)
deriving DecidableEq

/-- Python + on these values: str + str concatenates; Path supports no +
operand, so both mixed cases raise TypeError. -/
def pyAdd : PyVal → PyVal → Except String PyVal
  | .strVal a, .strVal b => .ok (.strVal (a ++ b))
  | .pathVal _, _ => .error "TypeError: unsupported operand types for +: Path and str"
  | .strVal _, .pathVal _ => .error "TypeError: unsupported operand types for +: str and Path"

def pyValStr : PyVal → String
  | .pathVal s => s
  | .strVal s => s

/-- Line 251: pattern = str(temp_dir / "%06d" + selected[0].suffix).  By
Python operator precedence this parses as str((temp_dir / "%06d") +
selected[0].suffix), which adds a str to a Path object. -/
def framePatternExpr (temp_dir : String) (first_suffix : String) : Except String String :=
  (pyAdd (.pathVal (pyJoin temp_dir "%06d")) (.strVal first_suffix)).map pyValStr

/-! ## Session Orchestrator interpreter (persistent_runner.py lines 179-265)

The loop is run against an explicit script of stdin lines and a list of
encoder exit statuses; prints are abstracted away and directory-changing
side effects become events. -/

/-- Observable side effects of a session run. -/
inductive Event where
  | evFlush
  | evStats
  | evScratchCreated
  | evOutDirCreated (p : String)
  | evStagingCreated (p : String)
  | evCopied (dst : String)
  | evEncoderInvoked (cmd : List String)
  | evRenderComplete (out : String)
  | evGoodbye
deriving DecidableEq

/-- How a session run ends: normal break out of the loop, sys.exit(0) from
the picker, an uncaught exception, an exhausted input script, or exhausted
fuel. -/
inductive Outcome where
  | terminated
  | exited
  | uncaught (msg : String)
  | needInput
  | fuelOut
deriving DecidableEq

/-- subprocess.run(cmd, check=True): ok on exit status 0, otherwise the
CalledProcessError exception carrying the return code. -/
def run_checked (ret : Int) : Except String Unit :=
  if ret = 0 then .ok ()
  else .error ("CalledProcessError: returncode " ++ intStr ret)

/-- Result of the item-selection prompt run against an input script. -/
inductive PickOutcome where
  | pickExit (rest : List String)
  | picked (l : List Int) (rest : List String)
  | pickNeedInput
deriving DecidableEq

/-- prompt_item_indices as a loop over the input script: each line feeds the
loop body until one quits, one is accepted, or the script runs dry. -/
def prompt_item_indices_run (total : Nat) : List String → PickOutcome
  | [] => .pickNeedInput
  | resp :: rest =>
    match prompt_item_indices_step total resp with
    | .quit => .pickExit rest
    | .accepted l => .picked l rest
    | .reprompt => prompt_item_indices_run total rest

/-- Result of prompt_image_selection run against an input script. -/
inductive SelOutcome where
  | selEmpty (rest : List String)
  | selDone (imgs : List String) (rest : List String)
  | selExit (rest : List String)
  | selNeedInput
  | selFuelOut
deriving DecidableEq

/-- prompt_image_selection: an empty listing returns [] at once; otherwise
the picked indices are expanded, an empty expansion redisplays and loops,
and a non-empty resolved set is returned; fuel bounds the loop. -/
def prompt_image_selection_run (rootPath : String) (root : List FSNode) :
    Nat → List String → SelOutcome
  | 0, _ => .selFuelOut
  | fuel + 1, inputs =>
    let entries := sortEntries root
    if entries.isEmpty then .selEmpty inputs
    else
      match prompt_item_indices_run entries.length inputs with
      | .pickNeedInput => .selNeedInput
      | .pickExit rest => .selExit rest
      | .picked picks rest =>
        match selectionResolve rootPath entries picks with
        | none => prompt_image_selection_run rootPath root fuel rest
        | some u => .selDone u rest

/-- What the loop does next after the encode/report tail. -/
inductive TailStep where
  | tailAgain (rest : List String)
  | tailStop (rest : List String)
  | tailErr (msg : String) (rest : List String)
  | tailNeedInput
deriving DecidableEq

/-- Lines 256-265 given the encoder exit status: a non-zero status turns
into the CalledProcessError (tailErr) with nothing reported and no continue
prompt consumed; status 0 reports completion, flushes, and consumes the
continue answer: "y" loops, anything else says goodbye and terminates. -/
def encode_report_tail (out_path : String) (ret : Int) (inputs : List String) :
    List Event × TailStep :=
  match run_checked ret with
  | .error e => ([], .tailErr e inputs)
  | .ok _ =>
    match inputs with
    | [] => ([.evRenderComplete out_path, .evFlush], .tailNeedInput)
    | again :: rest =>
      if pyLower (pyStrip again) = "y" then
        ([.evRenderComplete out_path, .evFlush], .tailAgain rest)
      else
        ([.evRenderComplete out_path, .evFlush, .evGoodbye], .tailStop rest)

/-- How the while-loop continues after the tail: the loop body has no
exception handler, so tailErr propagates out of the loop and ends the whole
session as an uncaught error — the continuation is never invoked. -/
def loop_after_tail (t : TailStep) (events : List Event)
    (recurse : List String → List Event × Outcome) : List Event × Outcome :=
  match t with
  | .tailErr e _ => (events, .uncaught e)
  | .tailStop _ => (events, .terminated)
  | .tailNeedInput => (events, .needInput)
  | .tailAgain rest =>
    let r := recurse rest
    (events ++ r.1, r.2)

/-- IMG_ROOT (persistent_runner.py line 38), separators normalized. -/
def IMG_ROOT : String := "D:/AI/1Video_Generator/images"

/-- The main while-loop: flush and stats, workflow choice (quit breaks the
loop), image selection (mode 1 recreates a scratch directory whose generator
stub yields no images; any other mode browses IMG_ROOT), staging into
out_dir/temp_images, render configuration, the frame-pattern expression of
line 251, and the encoder invocation with its report tail. -/
def main_loop (fsRoot : List FSNode) :
    Nat → List Int → List String → List Event × Outcome
  | 0, _, _ => ([], .fuelOut)
  | fuel + 1, exits, inputs =>
    let evs0 : List Event := [.evFlush, .evStats]
    match inputs with
    | [] => (evs0, .needInput)
    | modeRaw :: rest1 =>
      let mode := pyStrip modeRaw
      if pyLower mode = "q" ∨ pyLower mode = "quit" then (evs0, .terminated)
      else
        match (if mode = "1" then
                match rest1 with
                | [] => none
                | _prompt :: rest2 =>
                  some ([Event.evScratchCreated],
                    prompt_image_selection_run "./temp_images" [] fuel rest2)
               else
                some (([] : List Event),
                  prompt_image_selection_run IMG_ROOT fsRoot fuel rest1)) with
        | none => (evs0, .needInput)
        | some (evs1, selOut) =>
          match selOut with
          | .selFuelOut => (evs0 ++ evs1, .fuelOut)
          | .selNeedInput => (evs0 ++ evs1, .needInput)
          | .selExit _ => (evs0 ++ evs1, .exited)
          | .selEmpty rest =>
            let r := main_loop fsRoot fuel exits rest
            (evs0 ++ evs1 ++ r.1, r.2)
          | .selDone imgs rest =>
            match rest with
            | [] => (evs0 ++ evs1, .needInput)
            | odRaw :: rest2 =>
              match rest2 with
              | [] => (evs0 ++ evs1, .needInput)
              | fnRaw :: rest3 =>
                let od := if (pyStrip odRaw).data.isEmpty then "output" else pyStrip odRaw
                let base :=
                  if (pyStrip fnRaw).data.isEmpty then "rendered_video" else pyStrip fnRaw
                let temp_dir := pyJoin od "temp_images"
                let evs2 := evs0 ++ evs1 ++
                  [Event.evOutDirCreated od, Event.evStagingCreated temp_dir] ++
                  (stagedPairs imgs).map (fun pr => Event.evCopied pr.1)
                match rest3 with
                | [] => (evs2, .needInput)
                | fpsRaw :: rest4 =>
                  match rest4 with
                  | [] => (evs2, .needInput)
                  | zoomRaw :: rest5 =>
                    match rest5 with
                    | [] => (evs2, .needInput)
                    | padRaw :: rest6 =>
                      let fps := parse_fps fpsRaw
                      let zoom := parse_zoom zoomRaw
                      let padding := parse_padding padRaw
                      let output_path := pyJoin od (base ++ ".mp4")
                      match imgs with
                      | [] => (evs2, .uncaught "IndexError: list index out of range")
                      | s0 :: _ =>
                        match framePatternExpr temp_dir (pySuffix s0) with
                        | .error e => (evs2, .uncaught e)
                        | .ok pattern =>
                          let cmd :=
                            build_ffmpeg_cmd pattern fps zoom padding none output_path
                          match exits with
                          | [] => (evs2 ++ [Event.evEncoderInvoked cmd], .needInput)
                          | ret :: exitsRest =>
                            let tl := encode_report_tail output_path ret rest6
                            loop_after_tail tl.2
                              (evs2 ++ [Event.evEncoderInvoked cmd] ++ tl.1)
                              (fun more => main_loop fsRoot fuel exitsRest more)

example : prompt_item_indices_step 5 "3,1-2,99" = .accepted [1, 2, 3] := by decide

example : prompt_item_indices_step 5 "  QUIT " = .quit := by decide

example : prompt_item_indices_step 3 "all" = .accepted [1, 2, 3] := by decide

example : prompt_item_indices_step 5 "77,88" = .reprompt := by decide

example : prompt_item_indices_step 5 "2;3" = .reprompt := by decide

lemma pySortedSet_sorted (l : List Int) : (pySortedSet l).Sorted (· ≤ ·) :=
  (List.sorted_insertionSort _ l).sublist (List.dedup_sublist _)

lemma pySortedSet_nodup (l : List Int) : (pySortedSet l).Nodup :=
  List.nodup_dedup _

lemma mem_pySortedSet {l : List Int} {x : Int} : x ∈ pySortedSet l ↔ x ∈ l :=
  (List.mem_dedup).trans (List.mem_insertionSort _)

/-- C2: for every total at least 1 and every selection string the prompt
accepts, the returned index list is non-empty, sorted ascending,
deduplicated, and every index lies within [1, total] (out-of-range raw
values having been silently dropped; an empty surviving set reprompts
instead of returning); in particular with total = 5 the input "3,1-2,99"
yields exactly [1, 2, 3]. -/
theorem c2_pick_indices_clamped_sorted :
    (∀ (total : Nat) (resp : String) (l : List Int),
      1 ≤ total → prompt_item_indices_step total resp = .accepted l →
        l ≠ [] ∧ l.Sorted (· ≤ ·) ∧ l.Nodup ∧ ∀ i ∈ l, 1 ≤ i ∧ i ≤ (total : Int))
    ∧ prompt_item_indices_step 5 "3,1-2,99" = .accepted [1, 2, 3] := by
  constructor
  · intro total resp l htot h
    simp only [prompt_item_indices_step] at h
    split at h
    · exact absurd h (by simp)
    · split at h
      · -- "all": the full range 1..total is returned
        have hl : l = (List.range total).map (fun k : Nat => (k : Int) + 1) :=
          (PromptResult.accepted.injEq _ _ ▸ h).symm
        subst hl
        refine ⟨?_, ?_, ?_, ?_⟩
        · simp only [ne_eq, List.map_eq_nil_iff, List.range_eq_nil]
          omega
        · refine List.Pairwise.map _ ?_ (List.sorted_lt_range total)
          intro a b hab
          show ((a : Int) + 1) ≤ ((b : Int) + 1)
          omega
        · refine List.Nodup.map ?_ (List.nodup_range total)
          intro a b hab
          have hab2 : (a : Int) + 1 = (b : Int) + 1 := hab
          omega
        · intro i hi
          rcases List.mem_map.mp hi with ⟨k, hk, rfl⟩
          have := List.mem_range.mp hk
          omega
      · -- parsed comma-separated tokens
        split at h
        · exact absurd h (by simp)
        · rename_i chunks _
          split at h
          · exact absurd h (by simp)
          · rename_i hne
            have hl : l = pySortedSet (chunks.flatten.filter
                (fun i => decide (1 ≤ i ∧ i ≤ (total : Int)))) :=
              (PromptResult.accepted.injEq _ _ ▸ h).symm
            subst hl
            refine ⟨hne, pySortedSet_sorted _, pySortedSet_nodup _, ?_⟩
            intro i hi
            have := List.mem_filter.mp (mem_pySortedSet.mp hi)
            simpa using this.2
  · decide

/-- Witness for C2 at total = 5 and input "3,1-2,99". -/
theorem c2_pick_indices_clamped_sorted_witness :
    ([1, 2, 3] : List Int) ≠ [] ∧ ([1, 2, 3] : List Int).Sorted (· ≤ ·) ∧
      ([1, 2, 3] : List Int).Nodup ∧ ∀ i ∈ ([1, 2, 3] : List Int), 1 ≤ i ∧ i ≤ (5 : Int) :=
  c2_pick_indices_clamped_sorted.1 5 "3,1-2,99" [1, 2, 3] (by decide)
    c2_pick_indices_clamped_sorted.2

/-! ## Order facts for the listing sort and the path sort -/

lemma charListLE_total : ∀ as bs, charListLE as bs = true ∨ charListLE bs as = true := by
  intro as
  induction as with
  | nil => intro bs; left; rfl
  | cons a as ih =>
    intro bs
    cases bs with
    | nil => right; rfl
    | cons b bs =>
      by_cases h1 : a.toNat < b.toNat
      · left; simp [charListLE, h1]
      · by_cases h2 : b.toNat < a.toNat
        · right; simp [charListLE, h2]
        · rcases ih bs with h | h
          · left; simp [charListLE, h1, h2, h]
          · right; simp [charListLE, h1, h2, h]

lemma charListLE_trans : ∀ as bs cs, charListLE as bs = true → charListLE bs cs = true →
    charListLE as cs = true := by
  intro as
  induction as with
  | nil => intro bs cs h1 h2; rfl
  | cons a as ih =>
    intro bs cs h1 h2
    cases bs with
    | nil => exact absurd h1 (by simp [charListLE])
    | cons b bs =>
      cases cs with
      | nil => exact absurd h2 (by simp [charListLE])
      | cons c cs =>
        simp only [charListLE] at h1 h2 ⊢
        split_ifs at h1 with hab hba
        · split_ifs at h2 with hbc hcb
          · have hac : a.toNat < c.toNat := by omega
            simp [hac]
          · have hac : a.toNat < c.toNat := by omega
            simp [hac]
        · split_ifs at h2 with hbc hcb
          · have hac : a.toNat < c.toNat := by omega
            simp [hac]
          · have h3 : ¬ a.toNat < c.toNat := by omega
            have h4 : ¬ c.toNat < a.toNat := by omega
            simp only [h3, h4, if_false]
            exact ih bs cs h1 h2

instance : IsTotal String strLE := ⟨fun a b => charListLE_total a.data b.data⟩

instance : IsTrans String strLE := ⟨fun a b c => charListLE_trans a.data b.data c.data⟩

instance : IsTotal FSNode keyLE := by
  refine ⟨fun a b => ?_⟩
  rcases Nat.lt_trichotomy (dirRank a) (dirRank b) with h | h | h
  · exact Or.inl (Or.inl h)
  · rcases charListLE_total (pyLower a.name).data (pyLower b.name).data with hc | hc
    · exact Or.inl (Or.inr ⟨h, hc⟩)
    · exact Or.inr (Or.inr ⟨h.symm, hc⟩)
  · exact Or.inr (Or.inl h)

instance : IsTrans FSNode keyLE := by
  refine ⟨fun a b c hab hbc => ?_⟩
  rcases hab with h1 | ⟨h1, hc1⟩ <;> rcases hbc with h2 | ⟨h2, hc2⟩
  · exact Or.inl (by omega)
  · exact Or.inl (by omega)
  · exact Or.inl (by omega)
  · exact Or.inr ⟨by omega, charListLE_trans _ _ _ hc1 hc2⟩

lemma pySortedSetStr_sorted (l : List String) : (pySortedSetStr l).Sorted strLE :=
  (List.sorted_insertionSort _ l).sublist (List.dedup_sublist _)

lemma pySortedSetStr_nodup (l : List String) : (pySortedSetStr l).Nodup :=
  List.nodup_dedup _

lemma mem_pySortedSetStr {l : List String} {x : String} : x ∈ pySortedSetStr l ↔ x ∈ l :=
  (List.mem_dedup).trans (List.mem_insertionSort _)

example : sortEntries [FSNode.file "a.png", FSNode.dir "z" []] =
    [FSNode.dir "z" [], FSNode.file "a.png"] := by rfl

example : selectionResolve "r" [FSNode.file "a.png"] [1] = some ["r/a.png"] := by rfl

example : selectionResolve "r" [FSNode.file "a.txt"] [1] = none := by rfl

example : pySuffix "dir/archive.tar.gz" = ".gz" := by rfl

example : pySuffix "dir/.bashrc" = "" := by rfl

example : pySuffix "a." = "" := by rfl

/-- C5 counterexample: directories-first IS enforced by the key.  The
directory "z" sorts before the file "a.png" although their comparison keys
do not tie (their first components differ and their names differ), refuting
"a directory entry sorts before a file entry of the same prefix only when
the comparison key ties". -/
theorem c5_counterexample_directories_first :
    sortEntries [FSNode.file "a.png", FSNode.dir "z" []] =
      [FSNode.dir "z" [], FSNode.file "a.png"]
    ∧ dirRank (FSNode.dir "z" []) = 0
    ∧ dirRank (FSNode.file "a.png") = 1
    ∧ pyLower (FSNode.name (FSNode.dir "z" [])) = "z"
    ∧ pyLower (FSNode.name (FSNode.file "a.png")) = "a.png" := by
  exact ⟨rfl, rfl, rfl, rfl, rfl⟩

/-- C5 amended: the listing is sorted by the key (is_directory == false,
case-insensitive name); because the first key component already separates
them, every directory entry precedes every file entry (directories-first IS
enforced); the result is a permutation of the raw listing, and re-listing
the same unchanged directory yields the identical entry order. -/
theorem c5_listing_sorted_dirs_first :
    ∀ l : List FSNode,
      (sortEntries l).Perm l
      ∧ (sortEntries l).Sorted keyLE
      ∧ (sortEntries l).Pairwise (fun a b => b.isDir = true → a.isDir = true)
      ∧ ∀ l2, l = l2 → sortEntries l = sortEntries l2 := by
  intro l
  refine ⟨List.perm_insertionSort _ l, List.sorted_insertionSort _ l, ?_, ?_⟩
  · refine (List.sorted_insertionSort keyLE l).imp ?_
    intro a b hab hb
    have hrb : dirRank b = 0 := by simp [dirRank, hb]
    cases hia : a.isDir with
    | true => rfl
    | false =>
      have hra : dirRank a = 1 := by simp [dirRank, hia]
      rcases hab with h | ⟨h, _⟩ <;> omega
  · intro l2 he
    rw [he]

/-- Witness for the amended C5, discharging the re-listing hypothesis at a
concrete two-entry directory. -/
theorem c5_listing_sorted_dirs_first_witness :
    sortEntries [FSNode.file "a.png", FSNode.dir "z" []] =
      sortEntries [FSNode.file "a.png", FSNode.dir "z" []] :=
  (c5_listing_sorted_dirs_first [FSNode.file "a.png", FSNode.dir "z" []]).2.2.2
    [FSNode.file "a.png", FSNode.dir "z" []] rfl

lemma mem_entryContrib_recognized {rootPath : String} {node : FSNode} {p : String}
    (h : p ∈ entryContrib rootPath node) : recognizedPath p = true := by
  cases node with
  | file n =>
    simp only [entryContrib] at h
    split at h
    · rcases List.mem_singleton.mp h with rfl
      assumption
    · exact absurd h (List.not_mem_nil p)
  | dir n cs =>
    exact (List.mem_filter.mp h).2

/-- C7: whenever the expansion of an accepted index selection resolves, the
resulting image set contains only paths with a recognized extension (so a
selected file entry is included only if its extension is recognized), it is
deduplicated and ordered by path string; it is complete: a selected
recognized file entry is included, and every recursively found recognized
path below a selected directory entry is included; an expansion yielding no
images resolves to none, i.e. the listing is reprompted. -/
theorem c7_expansion_dedup_sorted_complete :
    (∀ (rootPath : String) (entries : List FSNode) (picks : List Int) (u : List String),
      selectionResolve rootPath entries picks = some u →
        (∀ p ∈ u, recognizedPath p = true)
        ∧ u.Nodup
        ∧ u.Sorted strLE
        ∧ (∀ i ∈ picks, ∀ n, entries.get? (i - 1).toNat = some (FSNode.file n) →
            recognizedPath (pyJoin rootPath n) = true → pyJoin rootPath n ∈ u)
        ∧ (∀ i ∈ picks, ∀ n cs, entries.get? (i - 1).toNat = some (FSNode.dir n cs) →
            ∀ p ∈ descPathsList (pyJoin rootPath n) cs, recognizedPath p = true → p ∈ u))
    ∧ (∀ (rootPath : String) (entries : List FSNode) (picks : List Int),
        expandSelection rootPath entries picks = [] →
          selectionResolve rootPath entries picks = none) := by
  constructor
  · intro rootPath entries picks u h
    unfold selectionResolve at h
    split at h
    · exact absurd h (by simp)
    · have hu : u = pySortedSetStr (expandSelection rootPath entries picks) :=
        (Option.some.injEq _ _ ▸ h).symm
      subst hu
      refine ⟨?_, pySortedSetStr_nodup _, pySortedSetStr_sorted _, ?_, ?_⟩
      · intro p hp
        have hsel := mem_pySortedSetStr.mp hp
        rcases List.mem_flatMap.mp hsel with ⟨i, _, hmem⟩
        cases hg : entries.get? (i - 1).toNat with
        | none => rw [hg] at hmem; exact absurd hmem (List.not_mem_nil p)
        | some node => rw [hg] at hmem; exact mem_entryContrib_recognized hmem
      · intro i hi n hget hrec
        refine mem_pySortedSetStr.mpr (List.mem_flatMap.mpr ⟨i, hi, ?_⟩)
        rw [hget]
        simp [entryContrib, hrec]
      · intro i hi n cs hget p hp hrec
        refine mem_pySortedSetStr.mpr (List.mem_flatMap.mpr ⟨i, hi, ?_⟩)
        rw [hget]
        exact List.mem_filter.mpr ⟨(List.mem_insertionSort _).mpr hp, hrec⟩
  · intro rootPath entries picks h
    unfold selectionResolve
    simp [h]

/-- Witness for C7 at a one-file listing with pick [1]. -/
theorem c7_expansion_dedup_sorted_complete_witness :
    (∀ p ∈ ["r/a.png"], recognizedPath p = true)
    ∧ (["r/a.png"] : List String).Nodup
    ∧ (["r/a.png"] : List String).Sorted strLE
    ∧ (∀ i ∈ [(1 : Int)], ∀ n, [FSNode.file "a.png"].get? (i - 1).toNat = some (FSNode.file n) →
        recognizedPath (pyJoin "r" n) = true → pyJoin "r" n ∈ ["r/a.png"])
    ∧ (∀ i ∈ [(1 : Int)], ∀ n cs, [FSNode.file "a.png"].get? (i - 1).toNat = some (FSNode.dir n cs) →
        ∀ p ∈ descPathsList (pyJoin "r" n) cs, recognizedPath p = true → p ∈ ["r/a.png"]) :=
  c7_expansion_dedup_sorted_complete.1 "r" [FSNode.file "a.png"] [1] ["r/a.png"] rfl

/-! ## Staging facts -/

lemma digitChar_toNat {d : Nat} (h : d < 10) : (digitChar d).toNat = 48 + d := by
  interval_cases d <;> decide

lemma digitsVal_append_digit (ds : List Char) (c : Char) :
    digitsVal (ds ++ [c]) = digitsVal ds * 10 + (c.toNat - 48) := by
  unfold digitsVal
  rw [List.foldl_append]
  rfl

lemma natDigitsGo_val : ∀ fuel n, n < fuel → digitsVal (natDigitsGo fuel n) = n := by
  intro fuel
  induction fuel with
  | zero => intro n h; omega
  | succ fuel ih =>
    intro n h
    unfold natDigitsGo
    split_ifs with h10
    · unfold digitsVal
      simp only [List.foldl_cons, List.foldl_nil]
      rw [digitChar_toNat h10]
      omega
    · rw [digitsVal_append_digit, ih (n / 10) (by omega)]
      rw [digitChar_toNat (by omega : n % 10 < 10)]
      omega

lemma natDigits_val (n : Nat) : digitsVal (natDigits n) = n :=
  natDigitsGo_val (n + 1) n (by omega)

lemma foldl_replicate_zero : ∀ z : Nat,
    List.foldl (fun a c => a * 10 + (c.toNat - 48)) 0 (List.replicate z '0') = 0 := by
  intro z
  induction z with
  | zero => rfl
  | succ z ih => simpa [List.replicate] using ih

lemma pad6_val (m : Nat) : digitsVal (pad6 m).data = m := by
  show digitsVal (List.replicate (6 - (natDigits m).length) '0' ++ natDigits m) = m
  unfold digitsVal
  rw [List.foldl_append, foldl_replicate_zero]
  exact natDigits_val m

lemma pad6_inj {m m2 : Nat} (h : pad6 m = pad6 m2) : m = m2 := by
  have := congrArg (fun s => digitsVal s.data) h
  simpa [pad6_val] using this

lemma natDigitsGo_length_le : ∀ fuel n k, n < fuel → n < 10 ^ k → 1 ≤ k →
    (natDigitsGo fuel n).length ≤ k := by
  intro fuel
  induction fuel with
  | zero => intro n k h; omega
  | succ fuel ih =>
    intro n k h hk h1
    unfold natDigitsGo
    split_ifs with h10
    · simpa using h1
    · have hk2 : 2 ≤ k := by
        by_contra hc
        have : k = 1 := by omega
        subst this
        simp at hk
        omega
      have hdiv : n / 10 < 10 ^ (k - 1) := by
        have h10pos : 0 < 10 := by omega
        rw [Nat.div_lt_iff_lt_mul h10pos]
        have : 10 ^ (k - 1) * 10 = 10 ^ k := by
          rw [← pow_succ]
          congr 1
          omega
        omega
      have := ih (n / 10) (k - 1) (by omega) hdiv (by omega)
      simp only [List.length_append, List.length_cons, List.length_nil]
      omega

lemma pad6_length {m : Nat} (h : m ≤ 999999) : (pad6 m).length = 6 := by
  have hlen : (natDigits m).length ≤ 6 := by
    apply natDigitsGo_length_le (m + 1) m 6 (by omega) (by norm_num; omega) (by omega)
  show (List.replicate (6 - (natDigits m).length) '0' ++ natDigits m).length = 6
  simp only [List.length_append, List.length_replicate]
  omega

lemma stagedName_num_inj {m m2 : Nat} {s t : String} (hm : m ≤ 999999) (hm2 : m2 ≤ 999999)
    (h : stagedName m s = stagedName m2 t) : m = m2 := by
  have hd : (pad6 m).data ++ (pySuffix s).data = (pad6 m2).data ++ (pySuffix t).data := by
    have := congrArg String.data h
    rwa [stagedName, stagedName, String.data_append, String.data_append] at this
  have hlen : (pad6 m).data.length = (pad6 m2).data.length := by
    show (pad6 m).length = (pad6 m2).length
    rw [pad6_length hm, pad6_length hm2]
  have hpads : (pad6 m).data = (pad6 m2).data := (List.append_inj hd hlen).1
  have : digitsVal (pad6 m).data = digitsVal (pad6 m2).data := by rw [hpads]
  rwa [pad6_val, pad6_val] at this

lemma stagedPairsFrom_length : ∀ (l : List String) (k : Nat),
    (stagedPairsFrom k l).length = l.length := by
  intro l
  induction l with
  | nil => intro k; rfl
  | cons s rest ih => intro k; simp [stagedPairsFrom, ih]

lemma stagedPairsFrom_get? : ∀ (l : List String) (k j : Nat),
    (stagedPairsFrom k l).get? j = (l.get? j).map (fun src => (stagedName (k + j) src, src)) := by
  intro l
  induction l with
  | nil => intro k j; cases j <;> rfl
  | cons s rest ih =>
    intro k j
    cases j with
    | zero => rfl
    | succ j =>
      show (stagedPairsFrom (k + 1) rest).get? j = _
      rw [ih (k + 1) j]
      have : k + 1 + j = k + (j + 1) := by omega
      simp [this]

lemma mem_stagedPairsFrom : ∀ (l : List String) (k : Nat) (pr : String × String),
    pr ∈ stagedPairsFrom k l →
      ∃ j, j < l.length ∧ l.get? j = some pr.2 ∧ pr.1 = stagedName (k + j) pr.2 := by
  intro l
  induction l with
  | nil => intro k pr h; exact absurd h (List.not_mem_nil pr)
  | cons s rest ih =>
    intro k pr h
    rcases List.mem_cons.mp h with rfl | h2
    · exact ⟨0, by simp, rfl, by simp⟩
    · rcases ih (k + 1) pr h2 with ⟨j, hj, hget, hname⟩
      refine ⟨j + 1, by simpa using hj, by simpa using hget, ?_⟩
      rw [hname]
      congr 1
      omega

lemma stagedPairsFrom_names_nodup : ∀ (l : List String) (k : Nat),
    1 ≤ k → k + l.length ≤ 1000000 → ((stagedPairsFrom k l).map Prod.fst).Nodup := by
  intro l
  induction l with
  | nil => intro k _ _; simp [stagedPairsFrom]
  | cons s rest ih =>
    intro k hk hbound
    simp only [stagedPairsFrom, List.map_cons, List.nodup_cons]
    constructor
    · intro hmem
      rcases List.mem_map.mp hmem with ⟨pr, hpr, heq⟩
      rcases mem_stagedPairsFrom rest (k + 1) pr hpr with ⟨j, hj, _, hname⟩
      have : stagedName k s = stagedName (k + 1 + j) pr.2 := by rw [heq] at hname; rw [← hname]
      have hk1 : k ≤ 999999 := by simp at hbound; omega
      have hk2 : k + 1 + j ≤ 999999 := by simp at hbound; omega
      have := stagedName_num_inj hk1 hk2 this
      omega
    · exact ih (k + 1) (by omega) (by simp at hbound ⊢; omega)

/-- C6: staging a resolved image list of n images produces exactly n copies;
the entry at position j (0-based) is named with the zero-padded sequence
number j+1 followed by the source's own extension and is a copy of the j-th
image of the list, so the numbering is contiguous from 000001 with no gaps
in the order of the resolved set; a sequence number up to 999999 pads to
exactly 6 digits, and within that range all staged filenames are distinct. -/
theorem c6_staging_contiguous_order_preserving :
    ∀ selected : List String,
      (stagedPairs selected).length = selected.length
      ∧ (∀ j src, selected.get? j = some src →
          (stagedPairs selected).get? j = some (stagedName (j + 1) src, src))
      ∧ (∀ m : Nat, 1 ≤ m → m ≤ 999999 → (pad6 m).length = 6)
      ∧ (selected.length ≤ 999999 → ((stagedPairs selected).map Prod.fst).Nodup) := by
  intro selected
  refine ⟨stagedPairsFrom_length selected 1, ?_, ?_, ?_⟩
  · intro j src hget
    unfold stagedPairs
    rw [stagedPairsFrom_get? selected 1 j, hget]
    simp [Nat.add_comm]
  · intro m _ hm
    exact pad6_length hm
  · intro hlen
    exact stagedPairsFrom_names_nodup selected 1 (by omega) (by omega)

/-- Witness for C6 at the two-image list ["a.png", "b.jpg"]. -/
theorem c6_staging_contiguous_order_preserving_witness :
    (stagedPairs ["a.png", "b.jpg"]).get? 0 = some (stagedName 1 "a.png", "a.png")
    ∧ (pad6 2).length = 6
    ∧ ((stagedPairs ["a.png", "b.jpg"]).map Prod.fst).Nodup :=
  ⟨(c6_staging_contiguous_order_preserving ["a.png", "b.jpg"]).2.1 0 "a.png" rfl,
   (c6_staging_contiguous_order_preserving ["a.png", "b.jpg"]).2.2.1 2 (by omega) (by omega),
   (c6_staging_contiguous_order_preserving ["a.png", "b.jpg"]).2.2.2 (by decide)⟩

example : stagedPairs ["x/a.png", "y/b.jpg"] =
    [("000001.png", "x/a.png"), ("000002.jpg", "y/b.jpg")] := by decide

/-- C8: the staging step first destroys and recreates the destination, so
its result does not depend on the prior contents of the destination at all,
and staging twice with the same resolved image set yields identical final
directory contents with no stale frames surviving. -/
theorem c8_stage_destroy_recreate_idempotent :
    ∀ (d d2 : List (String × String)) (selected : List String),
      stage_into d selected = stage_into d2 selected
      ∧ stage_into (stage_into d selected) selected = stage_into d selected := by
  intro d d2 selected
  exact ⟨rfl, rfl⟩

example : main_loop [FSNode.file "pic.png"] 2 [] ["2", "1", "", "", "", "", ""] =
    ([.evFlush, .evStats, .evOutDirCreated "output",
      .evStagingCreated "output/temp_images", .evCopied "000001.png"],
     .uncaught "TypeError: unsupported operand types for +: Path and str") := by decide

example : main_loop [FSNode.file "pic.png"] 1 [] ["q"] =
    ([.evFlush, .evStats], .terminated) := by decide

example : main_loop [FSNode.file "pic.png"] 2 [] ["2", "QUIT "] =
    ([.evFlush, .evStats], .exited) := by decide

/-- C1: the frame-pattern expression of line 251 never constructs a pattern:
by Python operator precedence it adds the string suffix to a Path object,
which raises TypeError for every staging directory and extension, so no
pattern is ever passed to the encode command builder; the full session run
below stages the copies and then dies on exactly this TypeError before any
encoder invocation. -/
theorem c1_frame_pattern_raises_typeerror :
    (∀ temp_dir first_suffix,
      framePatternExpr temp_dir first_suffix =
        .error "TypeError: unsupported operand types for +: Path and str")
    ∧ (∀ temp_dir first_suffix, (framePatternExpr temp_dir first_suffix).toOption = none)
    ∧ main_loop [FSNode.file "pic.png"] 2 [] ["2", "1", "", "", "", "", ""] =
        ([.evFlush, .evStats, .evOutDirCreated "output",
          .evStagingCreated "output/temp_images", .evCopied "000001.png"],
         .uncaught "TypeError: unsupported operand types for +: Path and str") :=
  ⟨fun _ _ => rfl, fun _ _ => rfl, by decide⟩

/-- C3 counterexample: the render-configuration parsing does not maintain
the claimed invariant: the digit input "0" yields framerate 0, which is not
positive, and the input "0.5" parses to zoom 0.5, which is below 1.0. -/
theorem c3_counterexample_fps_zero_zoom_half :
    parse_fps "0" = 0 ∧ parse_zoom "0.5" < 1 := by
  refine ⟨by decide, ?_⟩
  have h : parse_zoom "0.5" = ((0 : ℕ) : ℚ) + ((5 : ℕ) : ℚ) / (10 : ℚ) ^ (1 : ℕ) := rfl
  rw [h]
  norm_num

/-- C3 amended: framerate and padding are non-negative integers (the input
"0" legitimately yields 0, so positivity of the framerate is not enforced),
zoom is exactly the parsed float value and may lie below 1.0; the defaults
24, 1.0 and 0 are applied exactly when the stripped input is not a digit
string (framerate, padding) or fails to parse as a float (zoom). -/
theorem c3_render_request_amended :
    ∀ s : String,
      0 ≤ parse_fps s
      ∧ (¬ pyIsdigit (pyStrip s) = true → parse_fps s = 24)
      ∧ 0 ≤ parse_padding s
      ∧ (¬ pyIsdigit (pyStrip s) = true → parse_padding s = 0)
      ∧ (pyFloat? (pyStrip s) = none → parse_zoom s = 1)
      ∧ (∀ q, pyFloat? (pyStrip s) = some q → parse_zoom s = q) := by
  intro s
  refine ⟨?_, ?_, ?_, ?_, ?_, ?_⟩
  · unfold parse_fps
    split_ifs
    · exact Int.natCast_nonneg _
    · norm_num
  · intro h
    unfold parse_fps
    rw [if_neg h]
  · unfold parse_padding
    split_ifs
    · exact Int.natCast_nonneg _
    · norm_num
  · intro h
    unfold parse_padding
    rw [if_neg h]
  · intro h
    unfold parse_zoom
    rw [h]
  · intro q h
    unfold parse_zoom
    rw [h]

/-- Witness for the amended C3 at the non-numeric input "x". -/
theorem c3_render_request_amended_witness :
    parse_fps "x" = 24 ∧ parse_padding "x" = 0 ∧ parse_zoom "x" = 1 :=
  ⟨(c3_render_request_amended "x").2.1 (by decide),
   (c3_render_request_amended "x").2.2.2.1 (by decide),
   (c3_render_request_amended "x").2.2.2.2.1 rfl⟩

lemma natDigitsGo_mem_digit : ∀ fuel n c, c ∈ natDigitsGo fuel n →
    48 ≤ c.toNat ∧ c.toNat ≤ 57 := by
  intro fuel
  induction fuel with
  | zero => intro n c h; exact absurd h (List.not_mem_nil c)
  | succ fuel ih =>
    intro n c h
    unfold natDigitsGo at h
    split_ifs at h with h10
    · rcases List.mem_singleton.mp h with rfl
      rw [digitChar_toNat h10]
      omega
    · rcases List.mem_append.mp h with h2 | h2
      · exact ih (n / 10) c h2
      · rcases List.mem_singleton.mp h2 with rfl
        rw [digitChar_toNat (by omega : n % 10 < 10)]
        omega

lemma intStr_ne_vf (i : Int) : intStr i ≠ "-vf" := by
  intro h
  have hd := congrArg String.data h
  unfold intStr natStr at hd
  split_ifs at hd
  · have hd2 : '-' :: natDigits i.natAbs = ['-', 'v', 'f'] := hd
    have h3 : natDigits i.natAbs = ['v', 'f'] := by injection hd2
    have hv : 'v' ∈ natDigits i.natAbs := by rw [h3]; simp
    have := natDigitsGo_mem_digit _ _ _ hv
    have hvv : ('v').toNat = 118 := rfl
    omega
  · have hd2 : natDigits i.natAbs = ['-', 'v', 'f'] := hd
    have hv : '-' ∈ natDigits i.natAbs := by rw [hd2]; simp
    have := natDigitsGo_mem_digit _ _ _ hv
    have hvv : ('-').toNat = 45 := rfl
    omega

lemma intStr_ne_dash_i (i : Int) : intStr i ≠ "-i" := by
  intro h
  have hd := congrArg String.data h
  unfold intStr natStr at hd
  split_ifs at hd
  · have hd2 : '-' :: natDigits i.natAbs = ['-', 'i'] := hd
    have h3 : natDigits i.natAbs = ['i'] := by injection hd2
    have hv : 'i' ∈ natDigits i.natAbs := by rw [h3]; simp
    have := natDigitsGo_mem_digit _ _ _ hv
    have hvv : ('i').toNat = 105 := rfl
    omega
  · have hd2 : natDigits i.natAbs = ['-', 'i'] := hd
    have hv : '-' ∈ natDigits i.natAbs := by rw [hd2]; simp
    have := natDigitsGo_mem_digit _ _ _ hv
    have hvv : ('-').toNat = 45 := rfl
    omega

lemma build_ffmpeg_cmd_shape (pat : String) (fps : Int) (zoom : ℚ) (padding : Int)
    (out : String) :
    build_ffmpeg_cmd pat fps zoom padding none out =
      ["ffmpeg", "-y", "-framerate", intStr fps, "-i", pat]
      ++ (if zoom ≠ 1 ∧ 0 < padding then
            ["-vf", zoom_filter zoom ++ "," ++ pad_filter padding]
          else if zoom ≠ 1 then ["-vf", zoom_filter zoom]
          else if 0 < padding then ["-vf", pad_filter padding]
          else [])
      ++ ["-c:v", "libx264", "-pix_fmt", "yuv420p", out] := by
  unfold build_ffmpeg_cmd
  by_cases hz : zoom = 1 <;> by_cases hp : 0 < padding <;>
    simp [hz, hp, ENABLE_TTS, joinComma]

/-- C4 counterexample: the zoom filter is keyed on zoom != 1.0, not
zoom > 1.0: with the user input "0.5" the parsed zoom is 0.5, which is not
greater than 1.0, yet the built argument list does contain a filter-graph
argument. -/
theorem c4_counterexample_filter_on_low_zoom :
    "-vf" ∈ build_ffmpeg_cmd "frames/%06d.png" 24 (parse_zoom "0.5") 0 none "o.mp4"
    ∧ parse_zoom "0.5" < 1 := by
  have h : parse_zoom "0.5" = ((0 : ℕ) : ℚ) + ((5 : ℕ) : ℚ) / (10 : ℚ) ^ (1 : ℕ) := rfl
  have hz : parse_zoom "0.5" ≠ 1 := by rw [h]; norm_num
  constructor
  · rw [build_ffmpeg_cmd_shape]
    simp [hz]
  · rw [h]
    norm_num

/-- C4 amended: the built list always has the shape base ++ filters ++
tail; the zoom filter is present exactly when zoom differs from 1.0 (also
for zoom below 1.0), the pad filter exactly when padding > 0; when present
the two filters form a single -vf argument with the zoom filter preceding
the pad filter; with zoom = 1.0, padding = 0 and no audio there is no
filter-graph argument and only the single frame-sequence input. -/
theorem c4_build_cmd_filters_amended :
    ∀ (pat : String) (fps : Int) (zoom : ℚ) (padding : Int) (out : String),
      build_ffmpeg_cmd pat fps zoom padding none out =
        ["ffmpeg", "-y", "-framerate", intStr fps, "-i", pat]
        ++ (if zoom ≠ 1 ∧ 0 < padding then
              ["-vf", zoom_filter zoom ++ "," ++ pad_filter padding]
            else if zoom ≠ 1 then ["-vf", zoom_filter zoom]
            else if 0 < padding then ["-vf", pad_filter padding]
            else [])
        ++ ["-c:v", "libx264", "-pix_fmt", "yuv420p", out]
      ∧ (pat ≠ "-vf" → out ≠ "-vf" →
          ("-vf" ∈ build_ffmpeg_cmd pat fps zoom padding none out ↔
            (zoom ≠ 1 ∨ 0 < padding)))
      ∧ (zoom = 1 → padding ≤ 0 → pat ≠ "-i" → out ≠ "-i" →
          (build_ffmpeg_cmd pat fps zoom padding none out).count "-i" = 1) := by
  intro pat fps zoom padding out
  refine ⟨build_ffmpeg_cmd_shape pat fps zoom padding out, ?_, ?_⟩
  · intro hpat hout
    rw [build_ffmpeg_cmd_shape]
    constructor
    · intro hm
      by_contra hc
      push_neg at hc
      obtain ⟨hz, hpd⟩ := hc
      simp only [hz, ne_eq, not_true_eq_false, false_and, if_false, false_or,
        not_lt.mpr hpd] at hm
      have h3 : "-vf" = intStr fps ∨ "-vf" = pat ∨ "-vf" = out := by
        simpa using hm
      rcases h3 with h | h | h
      · exact absurd h (Ne.symm (intStr_ne_vf fps))
      · exact absurd h (Ne.symm hpat)
      · exact absurd h (Ne.symm hout)
    · intro hcond
      by_cases hz : zoom = 1
      · have hpd : 0 < padding := by
          rcases hcond with h | h
          · exact absurd hz h
          · exact h
        simp [hz, hpd]
      · by_cases hpd : 0 < padding <;> simp [hz, hpd]
  · intro hz hpd hpat hout
    rw [build_ffmpeg_cmd_shape]
    rw [if_neg (by simp [hz]), if_neg (by simp [hz]), if_neg (by omega)]
    simp [List.count_append, List.count_cons, beq_iff_eq, intStr_ne_dash_i fps,
      hpat, hout]

/-- Witness for the amended C4: the iff instantiated with zoom parsed from
"1.5" and padding 10, and the single-input count with zoom 1.0, padding 0. -/
theorem c4_build_cmd_filters_amended_witness :
    ("-vf" ∈ build_ffmpeg_cmd "frames/%06d.png" 24 (parse_zoom "1.5") 10 none "o.mp4" ↔
      (parse_zoom "1.5" ≠ 1 ∨ (0 : Int) < 10))
    ∧ (build_ffmpeg_cmd "frames/%06d.png" 24 1 0 none "o.mp4").count "-i" = 1 :=
  ⟨(c4_build_cmd_filters_amended "frames/%06d.png" 24 (parse_zoom "1.5") 10 "o.mp4").2.1
      (by decide) (by decide),
   (c4_build_cmd_filters_amended "frames/%06d.png" 24 1 0 "o.mp4").2.2
      rfl (by omega) (by decide) (by decide)⟩

/-- C9: a non-zero encoder exit status becomes the CalledProcessError with
nothing reported and no continue prompt consumed; the loop has no handler,
so the error step ends the session as an uncaught error and the workflow
continuation is never invoked; only exit status 0 reports completion and
reaches the continue prompt, whose "y" answer alone loops. -/
theorem c9_encode_failure_aborts_session :
    (∀ out ret inputs, ret ≠ 0 →
      encode_report_tail out ret inputs =
        ([], .tailErr ("CalledProcessError: returncode " ++ intStr ret) inputs))
    ∧ (∀ e rest events k, loop_after_tail (.tailErr e rest) events k = (events, .uncaught e))
    ∧ (∀ out again rest,
        encode_report_tail out 0 (again :: rest) =
          (if pyLower (pyStrip again) = "y"
            then ([.evRenderComplete out, .evFlush], .tailAgain rest)
            else ([.evRenderComplete out, .evFlush, .evGoodbye], .tailStop rest))) := by
  refine ⟨?_, fun e rest events k => rfl, ?_⟩
  · intro out ret inputs hret
    unfold encode_report_tail run_checked
    rw [if_neg hret]
  · intro out again rest
    unfold encode_report_tail run_checked
    rw [if_pos rfl]

/-- Witness for C9 at exit status 1 and at exit status 0 with answer "n". -/
theorem c9_encode_failure_aborts_session_witness :
    encode_report_tail "o.mp4" 1 ["y"] =
      ([], .tailErr ("CalledProcessError: returncode " ++ intStr 1) ["y"])
    ∧ loop_after_tail (.tailErr "boom" []) [Event.evFlush] (fun _ => ([], .terminated)) =
      ([Event.evFlush], .uncaught "boom")
    ∧ encode_report_tail "o.mp4" 0 ("n" :: []) =
      (if pyLower (pyStrip "n") = "y"
        then ([.evRenderComplete "o.mp4", .evFlush], .tailAgain [])
        else ([.evRenderComplete "o.mp4", .evFlush, .evGoodbye], .tailStop [])) :=
  ⟨c9_encode_failure_aborts_session.1 "o.mp4" 1 ["y"] (by decide),
   c9_encode_failure_aborts_session.2.1 "boom" [] [Event.evFlush] (fun _ => ([], .terminated)),
   c9_encode_failure_aborts_session.2.2 "o.mp4" "n" []⟩

/-- C10: a quit token (any casing and surrounding whitespace of q / quit)
at the workflow-choice prompt ends the session at once with only the flush
and stats housekeeping performed — no staging directory is created and the
encoder is never invoked in that iteration; a quit token at the
item-selection prompt of the image-dir workflow terminates the whole
program just the same via sys.exit(0). -/
theorem c10_quit_terminates_immediately :
    (∀ (fsRoot : List FSNode) (exits : List Int) (rest : List String) (fuel : Nat) (q : String),
      (pyLower (pyStrip q) = "q" ∨ pyLower (pyStrip q) = "quit") →
      main_loop fsRoot (fuel + 1) exits (q :: rest) = ([.evFlush, .evStats], .terminated))
    ∧ (∀ (fsRoot : List FSNode) (exits : List Int) (rest : List String) (fuel : Nat)
        (mode q : String),
        ¬(pyLower (pyStrip mode) = "q" ∨ pyLower (pyStrip mode) = "quit") →
        pyStrip mode ≠ "1" →
        (sortEntries fsRoot).isEmpty = false →
        (pyLower (pyStrip q) = "q" ∨ pyLower (pyStrip q) = "quit") →
        main_loop fsRoot (fuel + 2) exits (mode :: q :: rest) =
          ([.evFlush, .evStats], .exited)) := by
  constructor
  · intro fsRoot exits rest fuel q hq
    simp only [main_loop]
    rw [if_pos hq]
  · intro fsRoot exits rest fuel mode q hmode h1 hne hq
    have hstep : prompt_item_indices_step (sortEntries fsRoot).length q = .quit := by
      simp only [prompt_item_indices_step]
      rw [if_pos hq]
    have hpick : prompt_item_indices_run (sortEntries fsRoot).length (q :: rest) =
        .pickExit rest := by
      unfold prompt_item_indices_run
      rw [hstep]
    have hsel : prompt_image_selection_run IMG_ROOT fsRoot (fuel + 1) (q :: rest) =
        .selExit rest := by
      unfold prompt_image_selection_run
      simp only [hne, Bool.false_eq_true, if_false]
      rw [hpick]
    simp only [main_loop]
    rw [if_neg hmode, if_neg h1, hsel]
    rfl

/-- Witness for C10 at a one-file root, quitting with "q" at the workflow
prompt and with " Quit " at the item-selection prompt. -/
theorem c10_quit_terminates_immediately_witness :
    main_loop [FSNode.file "a.png"] 1 [] ["q"] = ([.evFlush, .evStats], .terminated)
    ∧ main_loop [FSNode.file "a.png"] 2 [] ["2", " Quit "] = ([.evFlush, .evStats], .exited) :=
  ⟨c10_quit_terminates_immediately.1 [FSNode.file "a.png"] [] [] 0 "q" (by decide),
   c10_quit_terminates_immediately.2 [FSNode.file "a.png"] [] [] 0 "2" " Quit "
     (by decide) (by decide) (by rfl) (by decide)⟩
